import Mathlib

/-!
Verification development for the `uhh` agentic tool-calling core.

The definitions below are a shallow embedding of the Go source:
  * `internal/tools/bash.go`        — dangerous-command detection and the
    pre-execution decisions of the bash tool,
  * `internal/tools/file_write.go`  — path resolution and the traversal
    guard shared by `file_read` and `file_write`,
  * `internal/agent/context.go`     — the bounded conversation context,
  * `internal/agent/agent.go`       — the agent loop (`Run`) and tool
    dispatch (`executeToolCall`).

Side-effecting pieces (the subprocess itself, filesystem reads/writes, the
LLM transport, the interactive gate) are modelled as parameters: the agent
loop takes the provider, the registry and the confirmation gate as
functions, exactly the shape of the Go interfaces.  Wall-clock durations
are not modelled.  Case-insensitive regexp matching of Go is modelled by
ASCII lowercasing, which agrees with RE2 on the ASCII command texts the
patterns are built from.
-/

set_option autoImplicit false

namespace Uhh

/-! ### Small string machinery (Go `strings` package operations) -/

/-- Substring test, Go `strings.Contains s sub`. -/
def goContainsAux (sub : List Char) : List Char → Bool
  | [] => sub.isPrefixOf []
  | c :: rest => sub.isPrefixOf (c :: rest) || goContainsAux sub rest

/-- Go `strings.Contains`. -/
def goContains (s sub : String) : Bool :=
  goContainsAux sub.data s.data

/-- Go `strings.HasPrefix`. -/
def goHasPre (s pre : String) : Bool :=
  pre.data.isPrefixOf s.data

/-! ### Dangerous-command patterns (`internal/tools/bash.go`)

Each Go regular expression from `dangerousPatterns` is translated into a
decidable matcher over the lowercased character list (the `(?i)` flag).
`findMatch` tries a pattern at every position, tracking the previous
character so that RE2 word boundaries can be decided. -/

/-- RE2 word character, the class used by the word boundary assertion. -/
def wordChar (c : Char) : Bool := c.isAlphanum || c == '_'

/-- RE2 whitespace class matched by the s escape: tab, newline, form feed,
carriage return and space. -/
def reSpace (c : Char) : Bool :=
  c == ' ' || c == '\t' || c == '\n' || c == '\x0c' || c == '\r'

/-- A word boundary holds before a word character iff the previous
character (if any) is not a word character. -/
def boundaryOk : Option Char → Bool
  | none => true
  | some c => !wordChar c

/-- Consume a literal, then continue with the rest of the input. -/
def tryLit (l : List Char) (s : List Char) (next : List Char → Bool) : Bool :=
  if l.isPrefixOf s then next (s.drop l.length) else false

/-- Consume one-or-more whitespace characters greedily (every pattern
below follows this with a non-whitespace character, so greediness agrees
with RE2 backtracking). -/
def ws1 : List Char → Option (List Char)
  | [] => none
  | c :: rest => if reSpace c then some (rest.dropWhile reSpace) else none

/-- Consume zero-or-more whitespace characters greedily. -/
def ws0 (s : List Char) : List Char := s.dropWhile reSpace

/-- RE2 dot-star followed by a literal: the literal must occur later in
the input with no newline in between (dot does not match newline). -/
def dotStarThen (needle : List Char) : List Char → Bool
  | [] => needle.isPrefixOf []
  | c :: rest => needle.isPrefixOf (c :: rest) || (c != '\n' && dotStarThen needle rest)

/-- Tail of the pipe-to-shell patterns: a pipe reached without crossing a
newline, then optional whitespace, then sh or bash. -/
def shellAfterPipe (s : List Char) : Bool :=
  "bash".data.isPrefixOf (ws0 s) || "sh".data.isPrefixOf (ws0 s)

/-- Scan for a pipe character with no newline before it, and a shell name
after it. -/
def pipeToShell : List Char → Bool
  | [] => false
  | c :: rest => (c == '|' && shellAfterPipe rest) || (c != '\n' && pipeToShell rest)

/-- Pattern `brm s+ (-rf? or --recursive) s* /`. -/
def matchRmRoot (prev : Option Char) (s : List Char) : Bool :=
  boundaryOk prev && tryLit "rm".data s (fun s1 =>
    match ws1 s1 with
    | none => false
    | some s2 =>
      tryLit "-rf".data s2 (fun s3 => "/".data.isPrefixOf (ws0 s3)) ||
      tryLit "-r".data s2 (fun s3 => "/".data.isPrefixOf (ws0 s3)) ||
      tryLit "--recursive".data s2 (fun s3 => "/".data.isPrefixOf (ws0 s3)))

/-- Pattern `brm s+ -rf? s+ star`. -/
def matchRmStar (prev : Option Char) (s : List Char) : Bool :=
  boundaryOk prev && tryLit "rm".data s (fun s1 =>
    match ws1 s1 with
    | none => false
    | some s2 =>
      tryLit "-rf".data s2 (fun s3 =>
        match ws1 s3 with
        | some s4 => "*".data.isPrefixOf s4
        | none => false) ||
      tryLit "-r".data s2 (fun s3 =>
        match ws1 s3 with
        | some s4 => "*".data.isPrefixOf s4
        | none => false))

/-- Pattern `bsudo s+ rm`. -/
def matchSudoRm (prev : Option Char) (s : List Char) : Bool :=
  boundaryOk prev && tryLit "sudo".data s (fun s1 =>
    match ws1 s1 with
    | some s2 => "rm".data.isPrefixOf s2
    | none => false)

/-- Pattern `bmkfsb`. -/
def matchMkfs (prev : Option Char) (s : List Char) : Bool :=
  boundaryOk prev && tryLit "mkfs".data s (fun s1 =>
    match s1 with
    | [] => true
    | c :: _ => !wordChar c)

/-- Pattern `bdd s+ .* of=/dev/`. -/
def matchDdDev (prev : Option Char) (s : List Char) : Bool :=
  boundaryOk prev && tryLit "dd".data s (fun s1 =>
    match ws1 s1 with
    | some s2 => dotStarThen "of=/dev/".data s2
    | none => false)

/-- Pattern `> s* /dev/sd[a-z]`. -/
def matchDevSd (_prev : Option Char) (s : List Char) : Bool :=
  tryLit ">".data s (fun s1 =>
    tryLit "/dev/sd".data (ws0 s1) (fun s3 =>
      match s3 with
      | c :: _ => 'a' ≤ c && c ≤ 'z'
      | [] => false))

/-- Pattern `bchmod s+ 777`. -/
def matchChmod777 (prev : Option Char) (s : List Char) : Bool :=
  boundaryOk prev && tryLit "chmod".data s (fun s1 =>
    match ws1 s1 with
    | some s2 => "777".data.isPrefixOf s2
    | none => false)

/-- Pattern `bcurl s+ .* pipe s* (ba)?sh`. -/
def matchCurlPipe (prev : Option Char) (s : List Char) : Bool :=
  boundaryOk prev && tryLit "curl".data s (fun s1 =>
    match ws1 s1 with
    | some s2 => pipeToShell s2
    | none => false)

/-- Pattern `bwget s+ .* pipe s* (ba)?sh`. -/
def matchWgetPipe (prev : Option Char) (s : List Char) : Bool :=
  boundaryOk prev && tryLit "wget".data s (fun s1 =>
    match ws1 s1 with
    | some s2 => pipeToShell s2
    | none => false)

/-- The fork-bomb pattern.  In RE2 its parentheses form an empty group and
the braces are literal, so the regex is an alternation of the two literal
fragments below. -/
def matchForkBomb (_prev : Option Char) (s : List Char) : Bool :=
  ":\x7b :".data.isPrefixOf s || ":& \x7d;:".data.isPrefixOf s

/-- Pattern `bformat s+ [a-z]:` (Windows format). -/
def matchFormat (prev : Option Char) (s : List Char) : Bool :=
  boundaryOk prev && tryLit "format".data s (fun s1 =>
    match ws1 s1 with
    | some s2 =>
      match s2 with
      | c :: c2 :: _ => ('a' ≤ c && c ≤ 'z') && c2 == ':'
      | _ => false
    | none => false)

/-- Try a positional matcher at every position of the input, tracking the
previous character for word boundaries. -/
def findMatch (f : Option Char → List Char → Bool) : Option Char → List Char → Bool
  | prev, [] => f prev []
  | prev, c :: rest => f prev (c :: rest) || findMatch f (some c) rest

/-- Whether the command matches any entry of `dangerousPatterns`, in the
order the Go slice lists them. -/
def dangerousMatch (command : String) : Bool :=
  let s := command.data.map Char.toLower
  findMatch matchRmRoot none s || findMatch matchRmStar none s ||
  findMatch matchSudoRm none s || findMatch matchMkfs none s ||
  findMatch matchDdDev none s || findMatch matchDevSd none s ||
  findMatch matchChmod777 none s || findMatch matchCurlPipe none s ||
  findMatch matchWgetPipe none s || findMatch matchForkBomb none s ||
  findMatch matchFormat none s

/-- The fixed advisory warning text returned for any dangerous match. -/
def dangerousWarningText : String :=
  "Warning: This command matches a dangerous pattern. Please review carefully."

/-- Go `checkDangerousCommand`: the fixed warning if any pattern matches,
the empty string otherwise. -/
def checkDangerousCommand (command : String) : String :=
  if dangerousMatch command then dangerousWarningText else ""

/-- Go `IsDangerousCommand`. -/
def IsDangerousCommand (command : String) : Bool :=
  checkDangerousCommand command != ""

/-! ### Path resolution and the traversal guard
(`internal/tools/file_write.go`, shared verbatim by `FileReadTool.Execute`
and `FileWriteTool.Execute`)

`filepath` is modelled for Unix path syntax (slash-separated), which is
the syntax used by the traversal examples of the spec. -/

/-- Go `filepath.IsAbs` on Unix: the path starts with a slash. -/
def isAbsPath (p : String) : Bool := goHasPre p "/"

/-- One step of the lexical processing of Go `filepath.Clean`, acting on the
stack of output segments. -/
def cleanStep (rooted : Bool) (acc : List (List Char)) (seg : List Char) :
    List (List Char) :=
  if seg = [] ∨ seg = ['.'] then acc
  else if seg = ['.', '.'] then
    if acc ≠ [] ∧ acc.getLast? ≠ some ['.', '.'] then acc.dropLast
    else if rooted then acc
    else acc ++ [seg]
  else acc ++ [seg]

/-- Go `filepath.Clean` (Unix): purely lexical normalisation — drop empty
and dot segments, resolve dot-dot against preceding segments, keep leading
dot-dot segments of relative paths, return a dot for an empty result. -/
def cleanPath (p : String) : String :=
  let rooted := isAbsPath p
  let segs := p.data.splitOn '/'
  let out := segs.foldl (cleanStep rooted) []
  let joined := List.intercalate ['/'] out
  if rooted then String.mk ('/' :: joined)
  else if joined = [] then "."
  else String.mk joined

/-- Go `filepath.Join` of two elements: empty elements are skipped, the
rest are joined with a slash and cleaned. -/
def joinPath (a b : String) : String :=
  if a = "" then (if b = "" then "" else cleanPath b)
  else cleanPath (a ++ "/" ++ b)

/-- The path-resolution step both file tools perform: an absolute path is
kept as is; a relative path is joined onto a non-empty `input.WorkingDir`,
or made absolute against the process working directory via `filepath.Abs`
(modelled by `getwd`; `none` models a failing `os.Getwd`, in which case
the Go code keeps the path unchanged). -/
def resolveToolPath (workingDir : String) (getwd : Option String) (p : String) :
    String :=
  if isAbsPath p then p
  else if workingDir ≠ "" then joinPath workingDir p
  else
    match getwd with
    | some wd => joinPath wd p
    | none => p

/-- Outcome of the pre-filesystem checks of the file tools. -/
inductive PathCheck where
  | rejected (msg : String)
  | proceed (path : String)
deriving DecidableEq

/-- The security check of `FileReadTool.Execute` and
`FileWriteTool.Execute`: if the resolved path contains a dot-dot
substring and its cleaned form has a dot-dot prefix, reject; otherwise
proceed to the filesystem with the resolved path. -/
def traversalCheck (path : String) : PathCheck :=
  if goContains path ".." then
    if goHasPre (cleanPath path) ".." then .rejected "path traversal not allowed"
    else .proceed path
  else .proceed path

/-- The full pre-filesystem path handling of both file tools: empty-path
rejection, resolution, then the traversal guard.  Everything after a
`proceed` result touches the filesystem (`os.Stat`, `os.MkdirAll`,
`os.ReadFile`, `os.WriteFile`). -/
def fileToolPathCheck (workingDir : String) (getwd : Option String)
    (inputPath : String) : PathCheck :=
  if inputPath = "" then .rejected "path cannot be empty"
  else traversalCheck (resolveToolPath workingDir getwd inputPath)

/-! ### Conversation context (`internal/agent/context.go`) -/

/-- A requested tool invocation (`llms.ToolCall`, with the nested
`FunctionCall` flattened to its name and raw JSON arguments). -/
structure ToolCall where
  id : String
  name : String
  arguments : String
deriving DecidableEq

/-- One conversation message (`agent.Message`). -/
structure Message where
  role : String
  content : String
  toolID : String
  toolCalls : List ToolCall
deriving DecidableEq

/-- The bounded conversation context (`agent.Context`). -/
structure Context where
  systemPrompt : String
  messages : List Message
  maxMessages : Nat
deriving DecidableEq

/-- Go `NewContext`: empty log, bound of 50 messages. -/
def NewContext (systemPrompt : String) : Context :=
  { systemPrompt := systemPrompt, messages := [], maxMessages := 50 }

/-- Go `Context.truncate`: when over the bound, keep only the most recent
`maxMessages` messages (the slice from `len - max`). -/
def Context.truncate (c : Context) : Context :=
  if c.messages.length > c.maxMessages then
    { c with messages := c.messages.drop (c.messages.length - c.maxMessages) }
  else c

/-- Go `Context.AddUserMessage`. -/
def Context.AddUserMessage (c : Context) (content : String) : Context :=
  ({ c with messages :=
      c.messages ++ [Message.mk "user" content "" []] }).truncate

/-- Go `Context.AddAssistantMessage`. -/
def Context.AddAssistantMessage (c : Context) (content : String) : Context :=
  ({ c with messages :=
      c.messages ++ [Message.mk "assistant" content "" []] }).truncate

/-- Go `Context.AddAssistantMessageWithToolCalls`. -/
def Context.AddAssistantMessageWithToolCalls (c : Context) (content : String)
    (toolCalls : List ToolCall) : Context :=
  ({ c with messages :=
      c.messages ++ [Message.mk "assistant" content "" toolCalls] }).truncate

/-- Go `Context.AddToolResult`. -/
def Context.AddToolResult (c : Context) (toolID result : String) : Context :=
  ({ c with messages :=
      c.messages ++ [Message.mk "tool" result toolID []] }).truncate

/-- Go `Context.Clear`. -/
def Context.Clear (c : Context) : Context := { c with messages := [] }

/-- One part of a wire-format message (`llms.ContentPart`). -/
inductive WirePart where
  | text (s : String)
  | toolCall (tc : ToolCall)
  | toolResponse (toolCallID content : String)
deriving DecidableEq

/-- A wire-format message (`llms.MessageContent`). -/
structure WireMessage where
  role : String
  parts : List WirePart
deriving DecidableEq

/-- The role-by-role translation in `ToLangchainMessages`; messages with
an unrecognised role are skipped by the Go switch statement. -/
def wireOfMessage (msg : Message) : Option WireMessage :=
  if msg.role = "user" then some { role := "human", parts := [.text msg.content] }
  else if msg.role = "assistant" then
    if msg.toolCalls.length > 0 then
      some { role := "ai", parts :=
        (if msg.content ≠ "" then [WirePart.text msg.content] else []) ++
          msg.toolCalls.map WirePart.toolCall }
    else some { role := "ai", parts := [.text msg.content] }
  else if msg.role = "tool" then
    some { role := "tool", parts := [.toolResponse msg.toolID msg.content] }
  else none

/-- Go `Context.ToLangchainMessages`: the system prompt first when
non-empty, then the retained messages translated role-by-role. -/
def Context.ToLangchainMessages (c : Context) : List WireMessage :=
  (if c.systemPrompt ≠ "" then [WireMessage.mk "system" [.text c.systemPrompt]] else []) ++
    c.messages.filterMap wireOfMessage

/-! ### Agent loop (`internal/agent/agent.go`) -/

/-- Agent configuration (`agent.Config`; the temperature only feeds the
LLM call options and is not modelled). -/
structure Config where
  autoApprove : Bool
  maxIterations : Nat
deriving DecidableEq

/-- Go `DefaultConfig`. -/
def DefaultConfig : Config := { autoApprove := false, maxIterations := 10 }

/-- Output of a tool (`tools.Output`). -/
structure Output where
  success : Bool
  result : String
  error : String
deriving DecidableEq

/-- The `(Output, error)` pair returned by `Tool.Execute`. -/
inductive ExecOutcome where
  | failed (err : String)
  | returned (out : Output)
deriving DecidableEq

/-- The part of the `tools.Tool` interface the dispatch logic consumes: a
name, the confirmation requirement, and the execution function (on the
raw argument string; the file/bash tools read only `Input.Raw`, and the
agent always passes an empty `WorkingDir`). -/
structure ToolM where
  name : String
  requiresConfirmation : Bool
  execute : String → ExecOutcome

/-- A registry modelled by its lookup function `Registry.Get`
(`none` stands for the unknown-tool error). -/
def RegistryM := String → Option ToolM

/-- The confirmation gate (`agent.ConfirmFunc`): `(approved, err)`. -/
def ConfirmFn := String → String → String → Except String Bool

/-- A choice in an LLM response (`llms.ContentChoice`). -/
structure Choice where
  content : String
  stopReason : String
  toolCalls : List ToolCall
deriving DecidableEq

/-- An LLM response (`llms.ContentResponse`). -/
structure Response where
  choices : List Choice
deriving DecidableEq

/-- The Language Model Service: iteration index and rendered messages to
either a transport error or a response.  (The Go provider receives only
the messages; the index lets providers answer differently across
iterations.) -/
def ProviderM := Nat → List WireMessage → Except String Response

/-- A record of one tool invocation (`agent.ToolExecution`; the
wall-clock `Duration` field is not modelled). -/
structure ToolExecution where
  toolName : String
  input : String
  output : String
  approved : Bool
  skipped : Bool
  error : Option String
deriving DecidableEq

/-- The result of an agent run (`agent.Result`). -/
structure Result where
  finalAnswer : String
  toolsUsed : List ToolExecution
  iterations : Nat
  success : Bool
  error : Option String
deriving DecidableEq

/-- The confirmation description built in `executeToolCall`
(`fmt.Sprintf` of the fixed format string with the tool name). -/
def confirmationDescription (toolName : String) : String :=
  "Execute " ++ toolName ++ " tool"

/-- The post-approval part of `executeToolCall`: run the tool and record
output or failure text. -/
def runToolExec (tool : ToolM) (execution : ToolExecution) : ToolExecution :=
  match tool.execute execution.input with
  | .failed e => { execution with error := some e }
  | .returned out =>
    if out.success then { execution with output := out.result }
    else if out.result ≠ "" then
      { execution with output := out.result ++ "\n" ++ out.error }
    else { execution with output := out.error }

/-- Go `Agent.executeToolCall`: registry lookup, the confirmation gate
when required and configured, then execution. -/
def executeToolCall (reg : RegistryM) (cfg : Config)
    (confirmFn : Option ConfirmFn) (tc : ToolCall) : ToolExecution :=
  let execution : ToolExecution :=
    { toolName := tc.name, input := tc.arguments, output := "",
      approved := false, skipped := false, error := none }
  match reg tc.name with
  | none => { execution with error := some ("unknown tool: " ++ tc.name) }
  | some tool =>
    let needsConfirmation := tool.requiresConfirmation && !cfg.autoApprove
    match confirmFn with
    | some confirm =>
      if needsConfirmation then
        match confirm tool.name (confirmationDescription tool.name) tc.arguments with
        | .error e => { execution with error := some e }
        | .ok false => { execution with skipped := true }
        | .ok true => runToolExec tool { execution with approved := true }
      else runToolExec tool { execution with approved := true }
    | none => runToolExec tool { execution with approved := true }

/-- The text `Run` feeds back into the context for one execution: the
prefixed error if present, else the fixed skip notice, else the output. -/
def toolResultText (execution : ToolExecution) : String :=
  match execution.error with
  | some e => "Error: " ++ e
  | none =>
    if execution.skipped then "Tool execution was skipped by user."
    else execution.output

/-- The per-iteration tool-call processing of `Run`: execute each call in
order, appending one tool-result message per call, and collect the
executions in order. -/
def processCalls (reg : RegistryM) (cfg : Config) (confirmFn : Option ConfirmFn) :
    List ToolCall → Context → Context × List ToolExecution
  | [], ctx => (ctx, [])
  | tc :: rest, ctx =>
    let execution := executeToolCall reg cfg confirmFn tc
    let ctx1 := ctx.AddToolResult tc.id (toolResultText execution)
    let next := processCalls reg cfg confirmFn rest ctx1
    (next.1, execution :: next.2)

/-- The max-iterations error text (`fmt.Errorf` with the bound). -/
def maxIterMsg (maxIterations : Nat) : String :=
  "max iterations (" ++ toString maxIterations ++ ") reached"

/-- The loop body of `Agent.Run`.  `fuel` is the number of remaining
iterations (`maxIterations - i`, so the Go guard `i < maxIterations`
holds exactly when `fuel` is nonzero); `i` is the Go loop counter.
Returns the `Result`, the error value `Run` returns beside it, and the
final conversation context (the Go code mutates `a.context`). -/
def runLoop (cfg : Config) (reg : RegistryM) (confirmFn : Option ConfirmFn)
    (provider : ProviderM) :
    Nat → Nat → Context → Result → Result × Option String × Context
  | 0, _, ctx, result =>
    ({ result with error := some (maxIterMsg cfg.maxIterations) },
      some (maxIterMsg cfg.maxIterations), ctx)
  | fuel + 1, i, ctx, result =>
    let result1 := { result with iterations := i + 1 }
    match provider i ctx.ToLangchainMessages with
    | .error e => ({ result1 with error := some e }, some e, ctx)
    | .ok response =>
      match response.choices with
      | [] =>
        ({ result1 with error := some "no response from LLM" },
          some "no response from LLM", ctx)
      | choice :: _ =>
        match choice.toolCalls with
        | _ :: _ =>
          let ctx1 := ctx.AddAssistantMessageWithToolCalls choice.content choice.toolCalls
          let processed := processCalls reg cfg confirmFn choice.toolCalls ctx1
          runLoop cfg reg confirmFn provider fuel (i + 1) processed.1
            { result1 with toolsUsed := result1.toolsUsed ++ processed.2 }
        | [] =>
          if choice.content ≠ "" then
            ({ result1 with finalAnswer := choice.content, success := true },
              none, ctx.AddAssistantMessage choice.content)
          else if choice.stopReason = "end_turn" ∨ choice.stopReason = "stop" then
            ({ result1 with finalAnswer := choice.content, success := true },
              none, ctx)
          else
            runLoop cfg reg confirmFn provider fuel (i + 1) ctx result1

/-- Go `Agent.Run`: seed the context with the user prompt, then iterate
up to `maxIterations` times. -/
def Run (cfg : Config) (reg : RegistryM) (confirmFn : Option ConfirmFn)
    (provider : ProviderM) (ctx0 : Context) (userPrompt : String) :
    Result × Option String × Context :=
  runLoop cfg reg confirmFn provider cfg.maxIterations 0
    (ctx0.AddUserMessage userPrompt)
    { finalAnswer := "", toolsUsed := [], iterations := 0,
      success := false, error := none }

/-- The pre-execution decision of `BashTool.Execute` once the command
string has been extracted from the input: reject empty commands; the
dangerous-pattern check yields only a warning binding whose value is
discarded, so every non-empty command proceeds to the subprocess. -/
inductive BashAction where
  | reject (msg : String)
  | execute (command : String)
deriving DecidableEq

/-- Lines 71 to 91 of `bash.go`: the decision made before the subprocess
is started. -/
def bashCommandAction (command : String) : BashAction :=
  if command = "" then .reject "command cannot be empty"
  else
    let _warning := checkDangerousCommand command
    .execute command

/-! ### Context-window reasoning helpers -/

/-- One append operation on the conversation context, covering the four
mutators the Agent Loop uses. -/
inductive CtxOp where
  | user (content : String)
  | assistant (content : String)
  | assistantWithToolCalls (content : String) (toolCalls : List ToolCall)
  | toolResult (toolID result : String)

/-- Apply one append operation. -/
def applyCtxOp (c : Context) : CtxOp → Context
  | .user content => c.AddUserMessage content
  | .assistant content => c.AddAssistantMessage content
  | .assistantWithToolCalls content tcs => c.AddAssistantMessageWithToolCalls content tcs
  | .toolResult toolID result => c.AddToolResult toolID result

/-- The message each operation appends. -/
def opMessage : CtxOp → Message
  | .user content => Message.mk "user" content "" []
  | .assistant content => Message.mk "assistant" content "" []
  | .assistantWithToolCalls content tcs => Message.mk "assistant" content "" tcs
  | .toolResult toolID result => Message.mk "tool" result toolID []

/-- The most recent `n` entries of a list, in order. -/
def lastN {α : Type} (n : Nat) (l : List α) : List α :=
  l.drop (l.length - n)

theorem truncate_messages (c : Context) :
    c.truncate.messages = lastN c.maxMessages c.messages := by
  unfold Context.truncate lastN
  split
  · rfl
  · next h =>
    have h0 : c.messages.length - c.maxMessages = 0 := by omega
    rw [h0, List.drop_zero]

theorem truncate_maxMessages (c : Context) :
    c.truncate.maxMessages = c.maxMessages := by
  unfold Context.truncate
  split <;> rfl

theorem lastN_length_le {α : Type} (n : Nat) (l : List α) :
    (lastN n l).length ≤ n := by
  simp only [lastN, List.length_drop]
  omega

theorem lastN_of_length_le {α : Type} {n : Nat} {l : List α}
    (h : l.length ≤ n) : lastN n l = l := by
  unfold lastN
  have h0 : l.length - n = 0 := by omega
  rw [h0, List.drop_zero]

theorem lastN_append_lastN {α : Type} (n : Nat) (l l2 : List α) :
    lastN n (lastN n l ++ l2) = lastN n (l ++ l2) := by
  rcases le_or_lt l.length n with h | h
  · rw [lastN_of_length_le h]
  · unfold lastN
    have hdl : (l.drop (l.length - n)).length = n := by
      simp only [List.length_drop]; omega
    rcases le_or_lt l2.length n with h2 | h2
    · have hk1 : (l.drop (l.length - n) ++ l2).length - n = l2.length := by
        simp only [List.length_append, hdl]; omega
      have hk2 : (l ++ l2).length - n = (l.length - n) + l2.length := by
        simp only [List.length_append]; omega
      rw [hk1, hk2,
        List.drop_append_of_le_length (by rw [hdl]; omega),
        List.drop_append_of_le_length (by omega),
        List.drop_drop]
    · have hk1 : (l.drop (l.length - n) ++ l2).length - n =
          (l.drop (l.length - n)).length + (l2.length - n) := by
        simp only [List.length_append]; omega
      have hk2 : (l ++ l2).length - n = l.length + (l2.length - n) := by
        simp only [List.length_append]; omega
      rw [hk1, hk2, List.drop_append, List.drop_append]

theorem applyCtxOp_messages (c : Context) (op : CtxOp) :
    (applyCtxOp c op).messages = lastN c.maxMessages (c.messages ++ [opMessage op]) ∧
    (applyCtxOp c op).maxMessages = c.maxMessages := by
  cases op <;>
    simp [applyCtxOp, Context.AddUserMessage, Context.AddAssistantMessage,
      Context.AddAssistantMessageWithToolCalls, Context.AddToolResult,
      truncate_messages, truncate_maxMessages, opMessage]

theorem foldl_applyCtxOp (ops : List CtxOp) :
    ∀ c : Context, c.messages.length ≤ c.maxMessages →
      (ops.foldl applyCtxOp c).messages =
        lastN c.maxMessages (c.messages ++ ops.map opMessage) ∧
      (ops.foldl applyCtxOp c).maxMessages = c.maxMessages := by
  induction ops with
  | nil =>
    intro c hc
    refine ⟨?_, rfl⟩
    simp only [List.foldl_nil, List.map_nil, List.append_nil]
    exact (lastN_of_length_le hc).symm
  | cons op rest ih =>
    intro c hc
    obtain ⟨hm, hmax⟩ := applyCtxOp_messages c op
    have hlen : (applyCtxOp c op).messages.length ≤ (applyCtxOp c op).maxMessages := by
      rw [hm, hmax]; exact lastN_length_le _ _
    obtain ⟨ih1, ih2⟩ := ih (applyCtxOp c op) hlen
    refine ⟨?_, by rw [List.foldl_cons, ih2, hmax]⟩
    rw [List.foldl_cons, ih1, hm, hmax, lastN_append_lastN]
    simp [List.append_assoc]

end Uhh

open Uhh

/-- C7: the dangerous-command check flags `rm -rf /` and the fork bomb
`:(){ :|:& };:` with a non-empty warning, and produces no warning for
`ls -la` and `echo hi`. -/
theorem C7_dangerous_patterns :
    checkDangerousCommand "rm -rf /" = dangerousWarningText ∧
    checkDangerousCommand ":()\x7b :|:& \x7d;:" = dangerousWarningText ∧
    dangerousWarningText ≠ "" ∧
    checkDangerousCommand "ls -la" = "" ∧
    checkDangerousCommand "echo hi" = "" :=
  ⟨rfl, rfl, by decide, rfl, rfl⟩

/-- C1: evidence for the code bug.  The input path `../../etc/passwd` has
a cleaned form that still begins with a dot-dot segment, so the claim
requires the request to be rejected before any filesystem access.  The
code, however, resolves the path first: in the call path of the agent
(`WorkingDir` empty, `filepath.Abs` against the process directory, here
`/home/user`) and likewise for a caller-supplied absolute working
directory, the joined path is cleaned to the absolute `/etc/passwd`,
which no longer contains a dot-dot substring, so the guard does not fire
and the tool proceeds to the filesystem with `/etc/passwd`. -/
theorem C1_traversal_guard_bypassed :
    goHasPre (cleanPath "../../etc/passwd") ".." = true ∧
    fileToolPathCheck "" (some "/home/user") "../../etc/passwd" =
      PathCheck.proceed "/etc/passwd" ∧
    fileToolPathCheck "/home/user" none "../../etc/passwd" =
      PathCheck.proceed "/etc/passwd" :=
  ⟨rfl, rfl, rfl⟩

/-- C6 counterexample: for the dangerous command `rm -rf /`, the advisory
warning is produced, but the confirmation description built by
`executeToolCall` is the fixed string built from the tool name alone and
does not contain the warning.  A gate that approves exactly when its
description argument contains the warning text refuses this call, showing
the gate is invoked without the warning. -/
theorem C6_counterexample :
    checkDangerousCommand "rm -rf /" = dangerousWarningText ∧
    goContains (confirmationDescription "bash") dangerousWarningText = false ∧
    (executeToolCall
        (fun n => if n = "bash" then
            some { name := "bash", requiresConfirmation := true,
                   execute := fun _ => ExecOutcome.returned
                     { success := true, result := "ok", error := "" } }
          else none)
        { autoApprove := false, maxIterations := 10 }
        (some (fun _ description _ =>
          Except.ok (goContains description dangerousWarningText)))
        { id := "1", name := "bash", arguments := "rm -rf /" }).skipped = true :=
  ⟨rfl, rfl, rfl⟩

/-- C6 as amended: for every bash command matching a dangerous pattern, a
non-empty advisory warning (the fixed warning text) is produced and does
not block execution — the bash tool still proceeds to run the command —
but the warning is discarded rather than shown: the confirmation
description is the fixed string `Execute bash tool`, which does not
contain the warning. -/
theorem C6_amended_warning_advisory (command : String)
    (hd : checkDangerousCommand command ≠ "") :
    checkDangerousCommand command = dangerousWarningText ∧
    bashCommandAction command = BashAction.execute command ∧
    goContains (confirmationDescription "bash") (checkDangerousCommand command) = false := by
  have hmatch : dangerousMatch command = true := by
    by_contra hfalse
    apply hd
    unfold checkDangerousCommand
    simp [Bool.eq_false_iff.mpr hfalse]
  have hwarn : checkDangerousCommand command = dangerousWarningText := by
    unfold checkDangerousCommand
    rw [hmatch]
    rfl
  have hcmd : command ≠ "" := by
    intro hempty
    subst hempty
    exact hd rfl
  refine ⟨hwarn, ?_, ?_⟩
  · unfold bashCommandAction
    rw [if_neg hcmd]
  · rw [hwarn]
    rfl

/-- C6 amended, witnessed at `rm -rf /`. -/
theorem C6_amended_warning_advisory_witness :
    checkDangerousCommand "rm -rf /" = dangerousWarningText ∧
    bashCommandAction "rm -rf /" = BashAction.execute "rm -rf /" ∧
    goContains (confirmationDescription "bash") (checkDangerousCommand "rm -rf /") = false :=
  C6_amended_warning_advisory "rm -rf /" (by decide)

/-- C2: for every sequence of append operations on a context with bound
`maxMessages`, the retained sequence is exactly the most recent
`maxMessages` appended messages in order, and in particular the length
bound holds.  Since the operation list is arbitrary, instantiating it at
every prefix gives the bound after every operation. -/
theorem C2_window_bound (systemPrompt : String) (maxMessages : Nat) (ops : List CtxOp) :
    (ops.foldl applyCtxOp
        { systemPrompt := systemPrompt, messages := [], maxMessages := maxMessages }).messages =
      lastN maxMessages (ops.map opMessage) ∧
    (ops.foldl applyCtxOp
        { systemPrompt := systemPrompt, messages := [], maxMessages := maxMessages }).messages.length ≤
      maxMessages := by
  obtain ⟨h1, -⟩ := foldl_applyCtxOp ops
    { systemPrompt := systemPrompt, messages := [], maxMessages := maxMessages } (by simp)
  have h1s : (ops.foldl applyCtxOp
      { systemPrompt := systemPrompt, messages := [], maxMessages := maxMessages }).messages =
      lastN maxMessages (ops.map opMessage) := by simpa using h1
  exact ⟨h1s, h1s ▸ lastN_length_le _ _⟩

namespace Uhh

/-! ### Agent-loop reasoning helpers -/

theorem processCalls_length (reg : RegistryM) (cfg : Config)
    (confirmFn : Option ConfirmFn) :
    ∀ (calls : List ToolCall) (ctx : Context),
      (processCalls reg cfg confirmFn calls ctx).2.length = calls.length := by
  intro calls
  induction calls with
  | nil => intro ctx; rfl
  | cons tc rest ih => intro ctx; simp [processCalls, ih]

/-- Unfolding one iteration of the loop when the first choice carries tool
calls: the assistant message and the per-call results are appended, the
executions are accumulated, and the loop proceeds to the next iteration. -/
theorem runLoop_toolCalls_step (cfg : Config) (reg : RegistryM)
    (confirmFn : Option ConfirmFn) (provider : ProviderM)
    (fuel i : Nat) (ctx : Context) (result : Result)
    (content stopReason : String) (tc : ToolCall) (tcs : List ToolCall)
    (restChoices : List Choice)
    (hresp : provider i ctx.ToLangchainMessages =
      Except.ok ⟨⟨content, stopReason, tc :: tcs⟩ :: restChoices⟩) :
    runLoop cfg reg confirmFn provider (fuel + 1) i ctx result =
      runLoop cfg reg confirmFn provider fuel (i + 1)
        (processCalls reg cfg confirmFn (tc :: tcs)
          (ctx.AddAssistantMessageWithToolCalls content (tc :: tcs))).1
        { result with
          iterations := i + 1,
          toolsUsed := result.toolsUsed ++
            (processCalls reg cfg confirmFn (tc :: tcs)
              (ctx.AddAssistantMessageWithToolCalls content (tc :: tcs))).2 } := by
  simp only [runLoop, hresp]

theorem runLoop_always_toolCalls (cfg : Config) (reg : RegistryM)
    (confirmFn : Option ConfirmFn) (provider : ProviderM)
    (hp : ∀ (i : Nat) (msgs : List WireMessage), ∃ choice restChoices,
      provider i msgs = Except.ok ⟨choice :: restChoices⟩ ∧ choice.toolCalls ≠ []) :
    ∀ (fuel i : Nat) (ctx : Context) (result : Result),
      (runLoop cfg reg confirmFn provider fuel i ctx result).1.error =
          some (maxIterMsg cfg.maxIterations) ∧
      (runLoop cfg reg confirmFn provider fuel i ctx result).2.1 =
          some (maxIterMsg cfg.maxIterations) ∧
      (runLoop cfg reg confirmFn provider fuel i ctx result).1.success = result.success ∧
      (runLoop cfg reg confirmFn provider fuel i ctx result).1.iterations =
          (if fuel = 0 then result.iterations else i + fuel) ∧
      result.toolsUsed.length + fuel ≤
          (runLoop cfg reg confirmFn provider fuel i ctx result).1.toolsUsed.length := by
  intro fuel
  induction fuel with
  | zero =>
    intro i ctx result
    exact ⟨rfl, rfl, rfl, by simp [runLoop], by simp [runLoop]⟩
  | succ fuel ih =>
    intro i ctx result
    obtain ⟨choice, restChoices, hresp, htc⟩ := hp i ctx.ToLangchainMessages
    obtain ⟨content, stopReason, calls⟩ := choice
    cases calls with
    | nil => exact absurd rfl htc
    | cons tc tcs =>
      rw [runLoop_toolCalls_step cfg reg confirmFn provider fuel i ctx result
        content stopReason tc tcs restChoices hresp]
      obtain ⟨h1, h2, h3, h4, h5⟩ := ih (i + 1)
        (processCalls reg cfg confirmFn (tc :: tcs)
          (ctx.AddAssistantMessageWithToolCalls content (tc :: tcs))).1
        { result with
          iterations := i + 1,
          toolsUsed := result.toolsUsed ++
            (processCalls reg cfg confirmFn (tc :: tcs)
              (ctx.AddAssistantMessageWithToolCalls content (tc :: tcs))).2 }
      refine ⟨h1, h2, by rw [h3], ?_, ?_⟩
      · rw [h4]
        rcases Nat.eq_zero_or_pos fuel with hf | hf
        · subst hf; simp
        · have hne : fuel ≠ 0 := by omega
          simp only [hne, if_false, Nat.succ_ne_zero]
          omega
      · have hlen := processCalls_length reg cfg confirmFn (tc :: tcs)
          (ctx.AddAssistantMessageWithToolCalls content (tc :: tcs))
        have hsize : result.toolsUsed.length + (fuel + 1) ≤
            (result.toolsUsed ++
              (processCalls reg cfg confirmFn (tc :: tcs)
                (ctx.AddAssistantMessageWithToolCalls content (tc :: tcs))).2).length + fuel := by
          simp only [List.length_append, hlen, List.length_cons]
          omega
        exact le_trans hsize h5

theorem runLoop_error_reporting (cfg : Config) (reg : RegistryM)
    (confirmFn : Option ConfirmFn) (provider : ProviderM) :
    ∀ (fuel i : Nat) (ctx : Context) (result : Result),
      result.success = false → result.error = none →
      ((runLoop cfg reg confirmFn provider fuel i ctx result).2.1 =
        (runLoop cfg reg confirmFn provider fuel i ctx result).1.error ∧
       ((runLoop cfg reg confirmFn provider fuel i ctx result).1.success = true ↔
        (runLoop cfg reg confirmFn provider fuel i ctx result).2.1 = none)) := by
  intro fuel
  induction fuel with
  | zero =>
    intro i ctx result hs herr
    refine ⟨rfl, ?_⟩
    simp [runLoop, hs]
  | succ fuel ih =>
    intro i ctx result hs herr
    cases hpr : provider i ctx.ToLangchainMessages with
    | error e =>
      simp only [runLoop, hpr]
      refine ⟨trivial, ?_⟩
      simp [hs]
    | ok response =>
      cases hch : response.choices with
      | nil =>
        simp only [runLoop, hpr, hch]
        refine ⟨trivial, ?_⟩
        simp [hs]
      | cons choice restChoices =>
        obtain ⟨content, stopReason, calls⟩ := choice
        cases calls with
        | cons tc tcs =>
          simp only [runLoop, hpr, hch]
          exact ih (i + 1) _ _ (by simpa using hs) (by simpa using herr)
        | nil =>
          simp only [runLoop, hpr, hch]
          by_cases hco : content = ""
          · subst hco
            rw [if_neg (by simp)]
            by_cases hsr : stopReason = "end_turn" ∨ stopReason = "stop"
            · rw [if_pos hsr]
              refine ⟨?_, ?_⟩ <;> simp [herr]
            · rw [if_neg hsr]
              exact ih (i + 1) _ _ (by simpa using hs) (by simpa using herr)
          · rw [if_pos hco]
            refine ⟨?_, ?_⟩ <;> simp [herr]

/-- The execution record produced for a gate denial. -/
theorem executeToolCall_denied (reg : RegistryM) (cfg : Config) (g : ConfirmFn)
    (tc : ToolCall) (tool : ToolM)
    (hreg : reg tc.name = some tool)
    (hrc : tool.requiresConfirmation = true)
    (haa : cfg.autoApprove = false)
    (hdeny : g tool.name (confirmationDescription tool.name) tc.arguments = Except.ok false) :
    executeToolCall reg cfg (some g) tc =
      { toolName := tc.name, input := tc.arguments, output := "",
        approved := false, skipped := true, error := none } := by
  simp only [executeToolCall, hreg, hrc, haa, Bool.not_false, Bool.and_self, if_true, hdeny]

/-- The execution record produced for a gate error. -/
theorem executeToolCall_gate_error (reg : RegistryM) (cfg : Config) (g : ConfirmFn)
    (tc : ToolCall) (tool : ToolM) (e : String)
    (hreg : reg tc.name = some tool)
    (hrc : tool.requiresConfirmation = true)
    (haa : cfg.autoApprove = false)
    (herr : g tool.name (confirmationDescription tool.name) tc.arguments = Except.error e) :
    executeToolCall reg cfg (some g) tc =
      { toolName := tc.name, input := tc.arguments, output := "",
        approved := false, skipped := false, error := some e } := by
  simp only [executeToolCall, hreg, hrc, haa, Bool.not_false, Bool.and_self, if_true, herr]

/-- The execution record produced for an unknown tool name. -/
theorem executeToolCall_unknown (reg : RegistryM) (cfg : Config)
    (confirmFn : Option ConfirmFn) (tc : ToolCall)
    (hunknown : reg tc.name = none) :
    executeToolCall reg cfg confirmFn tc =
      { toolName := tc.name, input := tc.arguments, output := "",
        approved := false, skipped := false, error := some ("unknown tool: " ++ tc.name) } := by
  simp only [executeToolCall, hunknown]

end Uhh

/-- C3: if the Language Model Service returns at least one tool call in
every response, `Run` terminates with the max-iterations failure:
`Result.Iterations` equals `MaxIterations`, `Result.Success` is false,
the error is the max-iterations error (also returned as the error value beside the Result), and the accumulated ToolExecutions are returned — at least one
per iteration. -/
theorem C3_iteration_bound (cfg : Config) (reg : RegistryM)
    (confirmFn : Option ConfirmFn) (provider : ProviderM)
    (ctx0 : Context) (userPrompt : String)
    (hp : ∀ (i : Nat) (msgs : List WireMessage), ∃ choice restChoices,
      provider i msgs = Except.ok ⟨choice :: restChoices⟩ ∧ choice.toolCalls ≠ []) :
    (Run cfg reg confirmFn provider ctx0 userPrompt).1.iterations = cfg.maxIterations ∧
    (Run cfg reg confirmFn provider ctx0 userPrompt).1.success = false ∧
    (Run cfg reg confirmFn provider ctx0 userPrompt).1.error =
      some (maxIterMsg cfg.maxIterations) ∧
    (Run cfg reg confirmFn provider ctx0 userPrompt).2.1 =
      some (maxIterMsg cfg.maxIterations) ∧
    cfg.maxIterations ≤ (Run cfg reg confirmFn provider ctx0 userPrompt).1.toolsUsed.length := by
  obtain ⟨h1, h2, h3, h4, h5⟩ := runLoop_always_toolCalls cfg reg confirmFn provider hp
    cfg.maxIterations 0 (ctx0.AddUserMessage userPrompt)
    { finalAnswer := "", toolsUsed := [], iterations := 0, success := false, error := none }
  unfold Run
  refine ⟨?_, h3, h1, h2, ?_⟩
  · rw [h4]
    rcases Nat.eq_zero_or_pos cfg.maxIterations with hz | hz
    · simp [hz]
    · have hne : cfg.maxIterations ≠ 0 := by omega
      simp [hne]
  · simpa using h5

/-- C3, witnessed: a provider that always requests one tool call drives a
two-iteration configuration to the max-iterations failure. -/
theorem C3_iteration_bound_witness :
    (Run { autoApprove := true, maxIterations := 2 } (fun _ => none) none
        (fun _ _ => Except.ok ⟨[⟨"", "", [⟨"1", "t", "a"⟩]⟩]⟩)
        (NewContext "") "go").1.iterations = 2 ∧
    (Run { autoApprove := true, maxIterations := 2 } (fun _ => none) none
        (fun _ _ => Except.ok ⟨[⟨"", "", [⟨"1", "t", "a"⟩]⟩]⟩)
        (NewContext "") "go").1.success = false ∧
    (Run { autoApprove := true, maxIterations := 2 } (fun _ => none) none
        (fun _ _ => Except.ok ⟨[⟨"", "", [⟨"1", "t", "a"⟩]⟩]⟩)
        (NewContext "") "go").1.error = some (maxIterMsg 2) ∧
    (Run { autoApprove := true, maxIterations := 2 } (fun _ => none) none
        (fun _ _ => Except.ok ⟨[⟨"", "", [⟨"1", "t", "a"⟩]⟩]⟩)
        (NewContext "") "go").2.1 = some (maxIterMsg 2) ∧
    2 ≤ (Run { autoApprove := true, maxIterations := 2 } (fun _ => none) none
        (fun _ _ => Except.ok ⟨[⟨"", "", [⟨"1", "t", "a"⟩]⟩]⟩)
        (NewContext "") "go").1.toolsUsed.length :=
  C3_iteration_bound _ _ _ _ _ _ (fun _ _ => ⟨_, _, rfl, by simp⟩)

/-- C4 counterexample: a service failure on the very first call — a run
that did start — makes `Run` return a non-nil error (equal to
`Result.Error`), not a nil one, contradicting the claim that service
failures are reported solely via the Result with a nil returned error. -/
theorem C4_counterexample :
    (Run { autoApprove := false, maxIterations := 10 } (fun _ => none) none
        (fun _ _ => Except.error "boom") (NewContext "") "hi").2.1 = some "boom" ∧
    (Run { autoApprove := false, maxIterations := 10 } (fun _ => none) none
        (fun _ _ => Except.error "boom") (NewContext "") "hi").1.error = some "boom" ∧
    (Run { autoApprove := false, maxIterations := 10 } (fun _ => none) none
        (fun _ _ => Except.error "boom") (NewContext "") "hi").1.success = false :=
  ⟨rfl, rfl, rfl⟩

/-- C4 as amended: `Run` has no separate could-not-start error path; its
returned error value always equals `Result.Error`, and it is nil exactly
on the success terminations — every failure (service error, empty choice
list, max iterations) is returned as a non-nil error alongside the
Result. -/
theorem C4_amended_error_surface (cfg : Config) (reg : RegistryM)
    (confirmFn : Option ConfirmFn) (provider : ProviderM)
    (ctx0 : Context) (userPrompt : String) :
    (Run cfg reg confirmFn provider ctx0 userPrompt).2.1 =
      (Run cfg reg confirmFn provider ctx0 userPrompt).1.error ∧
    ((Run cfg reg confirmFn provider ctx0 userPrompt).1.success = true ↔
      (Run cfg reg confirmFn provider ctx0 userPrompt).2.1 = none) := by
  unfold Run
  exact runLoop_error_reporting cfg reg confirmFn provider cfg.maxIterations 0
    (ctx0.AddUserMessage userPrompt) _ rfl rfl

/-- C5: when the Confirmation Gate returns approved=false for a requested
tool call, the run continues to the next iteration (it is not aborted),
the recorded ToolExecution is marked Skipped (not approved, no output, no
error), and the context receives the fixed notice
`Tool execution was skipped by user.` as the tool-result text of that call. -/
theorem C5_skip_semantics (cfg : Config) (reg : RegistryM) (g : ConfirmFn)
    (provider : ProviderM) (fuel i : Nat) (ctx : Context) (result : Result)
    (content stopReason : String) (tc : ToolCall) (restChoices : List Choice)
    (tool : ToolM)
    (hresp : provider i ctx.ToLangchainMessages =
      Except.ok ⟨⟨content, stopReason, [tc]⟩ :: restChoices⟩)
    (hreg : reg tc.name = some tool)
    (hrc : tool.requiresConfirmation = true)
    (haa : cfg.autoApprove = false)
    (hdeny : g tool.name (confirmationDescription tool.name) tc.arguments = Except.ok false) :
    runLoop cfg reg (some g) provider (fuel + 1) i ctx result =
      runLoop cfg reg (some g) provider fuel (i + 1)
        ((ctx.AddAssistantMessageWithToolCalls content [tc]).AddToolResult tc.id
          "Tool execution was skipped by user.")
        { result with
          iterations := i + 1,
          toolsUsed := result.toolsUsed ++
            [{ toolName := tc.name, input := tc.arguments, output := "",
               approved := false, skipped := true, error := none }] } := by
  rw [runLoop_toolCalls_step cfg reg (some g) provider fuel i ctx result
    content stopReason tc [] restChoices hresp]
  simp only [processCalls,
    executeToolCall_denied reg cfg g tc tool hreg hrc haa hdeny, toolResultText]
  simp

/-- C5, witnessed on a concrete denial. -/
theorem C5_skip_semantics_witness :
    runLoop { autoApprove := false, maxIterations := 3 }
        (fun n => if n = "bash" then
            some { name := "bash", requiresConfirmation := true,
                   execute := fun _ => ExecOutcome.returned
                     { success := true, result := "hi", error := "" } }
          else none)
        (some fun _ _ _ => Except.ok false)
        (fun _ _ => Except.ok ⟨[⟨"", "", [⟨"1", "bash", "rm -rf /"⟩]⟩]⟩)
        3 0 (NewContext "sys")
        { finalAnswer := "", toolsUsed := [], iterations := 0,
          success := false, error := none } =
      runLoop { autoApprove := false, maxIterations := 3 }
        (fun n => if n = "bash" then
            some { name := "bash", requiresConfirmation := true,
                   execute := fun _ => ExecOutcome.returned
                     { success := true, result := "hi", error := "" } }
          else none)
        (some fun _ _ _ => Except.ok false)
        (fun _ _ => Except.ok ⟨[⟨"", "", [⟨"1", "bash", "rm -rf /"⟩]⟩]⟩)
        2 1
        (((NewContext "sys").AddAssistantMessageWithToolCalls ""
            [⟨"1", "bash", "rm -rf /"⟩]).AddToolResult "1"
          "Tool execution was skipped by user.")
        (Result.mk "" [ToolExecution.mk "bash" "rm -rf /" "" false true none]
          1 false none) := by
  have h := C5_skip_semantics { autoApprove := false, maxIterations := 3 }
    (fun n => if n = "bash" then
        some { name := "bash", requiresConfirmation := true,
               execute := fun _ => ExecOutcome.returned
                 { success := true, result := "hi", error := "" } }
      else none)
    (fun _ _ _ => Except.ok false)
    (fun _ _ => Except.ok ⟨[⟨"", "", [⟨"1", "bash", "rm -rf /"⟩]⟩]⟩)
    2 0 (NewContext "sys")
    { finalAnswer := "", toolsUsed := [], iterations := 0,
      success := false, error := none }
    "" "" ⟨"1", "bash", "rm -rf /"⟩ []
    { name := "bash", requiresConfirmation := true,
      execute := fun _ => ExecOutcome.returned
        { success := true, result := "hi", error := "" } }
    rfl rfl rfl rfl rfl
  simpa using h

/-- C8: when an assistant tool call names a tool absent from the
registry, the run is not aborted: the ToolExecution recording the
unknown-tool lookup error is appended, its error text (prefixed with
`Error: `) is fed back into the context as the tool result of that call, the
remaining tool calls of the same response are still processed, and the
loop proceeds to the next iteration. -/
theorem C8_unknown_tool (cfg : Config) (reg : RegistryM)
    (confirmFn : Option ConfirmFn) (provider : ProviderM)
    (fuel i : Nat) (ctx : Context) (result : Result)
    (content stopReason : String) (tc : ToolCall) (restCalls : List ToolCall)
    (restChoices : List Choice)
    (hresp : provider i ctx.ToLangchainMessages =
      Except.ok ⟨⟨content, stopReason, tc :: restCalls⟩ :: restChoices⟩)
    (hunknown : reg tc.name = none) :
    runLoop cfg reg confirmFn provider (fuel + 1) i ctx result =
      runLoop cfg reg confirmFn provider fuel (i + 1)
        (processCalls reg cfg confirmFn restCalls
          ((ctx.AddAssistantMessageWithToolCalls content (tc :: restCalls)).AddToolResult
            tc.id ("Error: unknown tool: " ++ tc.name))).1
        { result with
          iterations := i + 1,
          toolsUsed := result.toolsUsed ++
            ({ toolName := tc.name, input := tc.arguments, output := "",
               approved := false, skipped := false,
               error := some ("unknown tool: " ++ tc.name) } ::
              (processCalls reg cfg confirmFn restCalls
                ((ctx.AddAssistantMessageWithToolCalls content (tc :: restCalls)).AddToolResult
                  tc.id ("Error: unknown tool: " ++ tc.name))).2) } := by
  rw [runLoop_toolCalls_step cfg reg confirmFn provider fuel i ctx result
    content stopReason tc restCalls restChoices hresp]
  simp only [processCalls, executeToolCall_unknown reg cfg confirmFn tc hunknown,
    toolResultText]
  have hstr : "Error: " ++ ("unknown tool: " ++ tc.name) =
      "Error: unknown tool: " ++ tc.name := by
    rw [← String.append_assoc]
    congr 1
  rw [hstr]

/-- C8, witnessed: an unknown tool followed by a second (also unknown)
call in the same response; the equation exhibits the recorded lookup
error, the fed-back error text and the continued processing. -/
theorem C8_unknown_tool_witness :
    runLoop { autoApprove := true, maxIterations := 4 } (fun _ => none) none
        (fun _ _ => Except.ok ⟨[⟨"", "", [⟨"1", "ghost", "x"⟩, ⟨"2", "ghost2", "y"⟩]⟩]⟩)
        2 0 (NewContext "")
        (Result.mk "" [] 0 false none) =
      runLoop { autoApprove := true, maxIterations := 4 } (fun _ => none) none
        (fun _ _ => Except.ok ⟨[⟨"", "", [⟨"1", "ghost", "x"⟩, ⟨"2", "ghost2", "y"⟩]⟩]⟩)
        1 1
        (processCalls (fun _ => none) { autoApprove := true, maxIterations := 4 } none
          [⟨"2", "ghost2", "y"⟩]
          (((NewContext "").AddAssistantMessageWithToolCalls ""
              [⟨"1", "ghost", "x"⟩, ⟨"2", "ghost2", "y"⟩]).AddToolResult
            "1" ("Error: unknown tool: " ++ "ghost"))).1
        (Result.mk ""
          (ToolExecution.mk "ghost" "x" "" false false (some ("unknown tool: " ++ "ghost")) ::
            (processCalls (fun _ => none) { autoApprove := true, maxIterations := 4 } none
              [⟨"2", "ghost2", "y"⟩]
              (((NewContext "").AddAssistantMessageWithToolCalls ""
                  [⟨"1", "ghost", "x"⟩, ⟨"2", "ghost2", "y"⟩]).AddToolResult
                "1" ("Error: unknown tool: " ++ "ghost"))).2)
          1 false none) := by
  have h := C8_unknown_tool { autoApprove := true, maxIterations := 4 } (fun _ => none) none
    (fun _ _ => Except.ok ⟨[⟨"", "", [⟨"1", "ghost", "x"⟩, ⟨"2", "ghost2", "y"⟩]⟩]⟩)
    1 0 (NewContext "") (Result.mk "" [] 0 false none)
    "" "" ⟨"1", "ghost", "x"⟩ [⟨"2", "ghost2", "y"⟩] [] rfl rfl
  simpa using h

/-- C9: for every tool call where confirmation is required and the gate
denies the call or returns an error, the Execute function of the tool is never
invoked — the recorded ToolExecution has Approved=false and empty Output,
and the outcome is unchanged under arbitrary replacement of the execute
function of the tool. -/
theorem C9_no_execute_on_deny (reg : RegistryM) (cfg : Config) (g : ConfirmFn)
    (tc : ToolCall) (tool : ToolM)
    (hreg : reg tc.name = some tool)
    (hrc : tool.requiresConfirmation = true)
    (haa : cfg.autoApprove = false)
    (hgate : g tool.name (confirmationDescription tool.name) tc.arguments = Except.ok false ∨
      ∃ e, g tool.name (confirmationDescription tool.name) tc.arguments = Except.error e) :
    (executeToolCall reg cfg (some g) tc).approved = false ∧
    (executeToolCall reg cfg (some g) tc).output = "" ∧
    ∀ execute2 : String → ExecOutcome,
      executeToolCall
          (fun n => if n = tc.name then some { tool with execute := execute2 } else reg n)
          cfg (some g) tc =
        executeToolCall reg cfg (some g) tc := by
  rcases hgate with hdeny | ⟨e, herr⟩
  · rw [executeToolCall_denied reg cfg g tc tool hreg hrc haa hdeny]
    refine ⟨rfl, rfl, fun execute2 => ?_⟩
    rw [executeToolCall_denied
      (fun n => if n = tc.name then some { tool with execute := execute2 } else reg n)
      cfg g tc { tool with execute := execute2 } (by simp) hrc haa hdeny]
  · rw [executeToolCall_gate_error reg cfg g tc tool e hreg hrc haa herr]
    refine ⟨rfl, rfl, fun execute2 => ?_⟩
    rw [executeToolCall_gate_error
      (fun n => if n = tc.name then some { tool with execute := execute2 } else reg n)
      cfg g tc { tool with execute := execute2 } e (by simp) hrc haa herr]

/-- C9, witnessed on a denial, with a poisoned replacement execute
function whose observable effect never appears. -/
theorem C9_no_execute_on_deny_witness :
    (executeToolCall
        (fun n => if n = "fw" then
            some (ToolM.mk "fw" true (fun _ => ExecOutcome.returned (Output.mk true "wrote" "")))
          else none)
        { autoApprove := false, maxIterations := 10 }
        (some fun _ _ _ => Except.ok false)
        (ToolCall.mk "7" "fw" "data")).approved = false ∧
    (executeToolCall
        (fun n => if n = "fw" then
            some (ToolM.mk "fw" true (fun _ => ExecOutcome.returned (Output.mk true "wrote" "")))
          else none)
        { autoApprove := false, maxIterations := 10 }
        (some fun _ _ _ => Except.ok false)
        (ToolCall.mk "7" "fw" "data")).output = "" ∧
    executeToolCall
        (fun n => if n = "fw" then
            some (ToolM.mk "fw" true (fun _ => ExecOutcome.failed "SIDE EFFECT"))
          else
            (fun m => if m = "fw" then
                some (ToolM.mk "fw" true (fun _ => ExecOutcome.returned (Output.mk true "wrote" "")))
              else none) n)
        { autoApprove := false, maxIterations := 10 }
        (some fun _ _ _ => Except.ok false)
        (ToolCall.mk "7" "fw" "data") =
      executeToolCall
        (fun n => if n = "fw" then
            some (ToolM.mk "fw" true (fun _ => ExecOutcome.returned (Output.mk true "wrote" "")))
          else none)
        { autoApprove := false, maxIterations := 10 }
        (some fun _ _ _ => Except.ok false)
        (ToolCall.mk "7" "fw" "data") := by
  have h := C9_no_execute_on_deny
    (fun n => if n = "fw" then
        some (ToolM.mk "fw" true (fun _ => ExecOutcome.returned (Output.mk true "wrote" "")))
      else none)
    { autoApprove := false, maxIterations := 10 }
    (fun _ _ _ => Except.ok false)
    (ToolCall.mk "7" "fw" "data")
    (ToolM.mk "fw" true (fun _ => ExecOutcome.returned (Output.mk true "wrote" "")))
    rfl rfl rfl (Or.inl rfl)
  exact ⟨h.1, h.2.1, h.2.2 (fun _ => ExecOutcome.failed "SIDE EFFECT")⟩

/-- C10: when the first choice carries no tool calls and empty content
but stop reason `end_turn` or `stop`, the loop returns success with empty
final answer and the context unchanged (no assistant message appended);
when it instead terminates via non-empty content, that content is
appended to the context as an assistant message before returning. -/
theorem C10_stop_reason_termination (cfg : Config) (reg : RegistryM)
    (confirmFn : Option ConfirmFn) (provider : ProviderM)
    (fuel i : Nat) (ctx : Context) (result : Result)
    (content stopReason : String) (restChoices : List Choice)
    (hresp : provider i ctx.ToLangchainMessages =
      Except.ok ⟨⟨content, stopReason, []⟩ :: restChoices⟩) :
    (content = "" → (stopReason = "end_turn" ∨ stopReason = "stop") →
      runLoop cfg reg confirmFn provider (fuel + 1) i ctx result =
        ({ result with iterations := i + 1, finalAnswer := "", success := true },
          none, ctx)) ∧
    (content ≠ "" →
      runLoop cfg reg confirmFn provider (fuel + 1) i ctx result =
        ({ result with iterations := i + 1, finalAnswer := content, success := true },
          none, ctx.AddAssistantMessage content)) := by
  constructor
  · intro hc hsr
    subst hc
    simp only [runLoop, hresp]
    rw [if_neg (by simp), if_pos hsr]
  · intro hc
    simp only [runLoop, hresp]
    rw [if_pos hc]

/-- C10, witnessed: an `end_turn` stop with empty content succeeds with
the context untouched, and a `Done` content answer is appended as an
assistant message. -/
theorem C10_stop_reason_termination_witness :
    runLoop { autoApprove := false, maxIterations := 5 } (fun _ => none) none
        (fun _ _ => Except.ok ⟨[⟨"", "end_turn", []⟩]⟩)
        1 0 (NewContext "") (Result.mk "" [] 0 false none) =
      (Result.mk "" [] 1 true none, none, NewContext "") ∧
    runLoop { autoApprove := false, maxIterations := 5 } (fun _ => none) none
        (fun _ _ => Except.ok ⟨[⟨"Done", "stop", []⟩]⟩)
        1 0 (NewContext "") (Result.mk "" [] 0 false none) =
      (Result.mk "Done" [] 1 true none, none, (NewContext "").AddAssistantMessage "Done") := by
  constructor
  · have h := (C10_stop_reason_termination { autoApprove := false, maxIterations := 5 }
      (fun _ => none) none (fun _ _ => Except.ok ⟨[⟨"", "end_turn", []⟩]⟩)
      0 0 (NewContext "") (Result.mk "" [] 0 false none) "" "end_turn" [] rfl).1
      rfl (Or.inl rfl)
    simpa using h
  · have h := (C10_stop_reason_termination { autoApprove := false, maxIterations := 5 }
      (fun _ => none) none (fun _ _ => Except.ok ⟨[⟨"Done", "stop", []⟩]⟩)
      0 0 (NewContext "") (Result.mk "" [] 0 false none) "Done" "stop" [] rfl).2
      (by simp)
    simpa using h
